import Mathlib

/-!
Verification development for the custom-commands editor plugin.

The source is a TypeScript plugin with two engines: a markup toggle engine
(`toggleStyle`, `toggleTag`, `toggleLink`, with the shared helper
`wrapSelection` and the bounded poll helper `sleepUntil`) and a keydown
dispatcher (`keydownListener`).  This file gives a shallow embedding of
those functions and proves properties about them.

Modelling conventions:
- Document text is a single line, modelled as `List Char`; editor positions
  are character offsets (`Nat`) into that line.  In the source an
  `EditorPosition` is a `(line, ch)` pair; every behaviour treated here is
  confined to one line, where `ch` is exactly this offset.
- JavaScript number arithmetic on cursor offsets is modelled with `Int`
  (JS offsets can go negative); `String.prototype.slice` (which supports
  negative indices) is modelled by `jsSlice`.
- The editor's rendered DOM is host state read by the engine; it enters the
  embedding as explicit data (`NodeCtx`, the `cmView` span extents).  The
  rendering invariant "a span's `dom.textContent` is the document text of
  its `[posAtStart, posAtEnd)` extent" is used to express `textContent` as
  a slice of the line.
- `setInterval` time is idealised to exact 20 ms ticks: at tick `k`
  (`k = 0, 1, ...`) the elapsed time is `20 * (k + 1)` ms.
-/

/-! ### Basic list and slice helpers -/

/-- The text of the range `[a, b)` of a line (`editor.getRange` within one line). -/
def listSlice (l : List Char) (a b : Nat) : List Char :=
  (l.take b).drop a

/-- Model of `editor.replaceRange s` over `[a, b)` within one line. -/
def replaceList (l : List Char) (a b : Nat) (s : List Char) : List Char :=
  l.take a ++ s ++ l.drop b

/-- Resolve a JavaScript `slice` index against a length: negative indices
count from the end, and the result is clamped into `[0, len]`. -/
def jsIdx (len : Nat) (i : Int) : Nat :=
  if i < 0 then (i + len).toNat else min i.toNat len

/-- JavaScript `String.prototype.slice(a, b)` on a list of characters. -/
def jsSlice (l : List Char) (a b : Int) : List Char :=
  (l.take (jsIdx l.length b)).drop (jsIdx l.length a)

/-- Model of `editor.replaceRange` where the endpoints were computed in JS number
arithmetic and may be negative; the editor clamps them to the document. -/
def replaceListI (l : List Char) (a b : Int) (s : List Char) : List Char :=
  l.take a.toNat ++ s ++ l.drop b.toNat

/-- Remove the trailing run of space characters. -/
def dropTrailingSpaces (l : List Char) : List Char :=
  (l.reverse.dropWhile (fun ch => ch == ' ')).reverse

/-- The `/\x7b^<!-- *| *-->$/g`-style strip used by the comment branch of
`toggleStyle`: the actual source regex is `^<!-- *| *-->$` with the global
flag, i.e. remove a leading `<!--` plus following spaces, and a trailing
`-->` plus the spaces immediately before it. -/
def stripComment (l : List Char) : List Char :=
  let l1 := if l.take 4 = ['<', '!', '-', '-'] then (l.drop 4).dropWhile (fun ch => ch == ' ') else l
  if l1.reverse.take 3 = ['>', '-', '-'] then dropTrailingSpaces (l1.dropLast.dropLast.dropLast) else l1

/-- Model of `path.replace(/\.md$/, '')`. -/
def stripMdSuffix (p : String) : String :=
  if p.endsWith ".md" then p.dropRight 3 else p

/-! ### The bounded poll helper `sleepUntil` -/

/-- Outcome of the `sleepUntil` promise: it either resolves with the first
truthy value of the polled function, or rejects with the timeout error. -/
inductive PollResult (α : Type) where
  | resolved (v : α) : PollResult α
  | timedOut : PollResult α
deriving DecidableEq

/-- The `setInterval` loop body of `sleepUntil`, at tick `k` (elapsed time
`20 * (k + 1)` ms): first evaluate `f`; a truthy value resolves, otherwise
reject if strictly more than `timeoutMs` have elapsed, else keep polling.
`f` is indexed by the tick so that host state may change between polls.
The structural `fuel` only bounds the recursion; `sleepUntilRun` supplies
enough fuel that the `0` case is never reached. -/
def pollLoop {α : Type} (f : Nat → Option α) (timeoutMs : Nat) : Nat → Nat → PollResult α
  | 0, _ => .timedOut
  | fuel + 1, k =>
    match f k with
    | some v => .resolved v
    | none => if 20 * (k + 1) > timeoutMs then .timedOut else pollLoop f timeoutMs fuel (k + 1)

/-- Model of `sleepUntil(f, timeoutMs)` under the idealised 20 ms clock. -/
def sleepUntilRun {α : Type} (f : Nat → Option α) (timeoutMs : Nat) : PollResult α :=
  pollLoop f timeoutMs (timeoutMs / 20 + 1) 0

/-- The source's default `timeoutMs` argument. -/
def sleepUntilDefaultMs : Nat := 2000

/-! ### Selections and `wrapSelection` -/

/-- A selection: either a caret (empty selection, `selection.type === 'Caret'`)
or an explicit non-empty range.  Offsets are `ch` offsets in the line. -/
inductive Sel where
  | caret (c : Nat) : Sel
  | range (a b : Nat) : Sel
deriving DecidableEq

/-- Model of `editor.getCursor()` (the selection head). -/
def Sel.cursorPos : Sel → Nat
  | .caret c => c
  | .range _ b => b

/-- Model of `wrapSelection(beforeStr, afterStr, editor)`: wrap the explicit selection,
or the word at the caret, or (caret, no word) insert `beforeStr ++ afterStr`
at the caret.  Returns the new line and, for a caret, the returned
`{anchor, head}` cursor offset (the original caret shifted right by
`beforeStr.length`); for a range selection the source returns `undefined`. -/
def wrapSelection (beforeStr afterStr line : List Char) (sel : Sel)
    (wordAt : Nat → Option (Nat × Nat)) : List Char × Option Int :=
  match sel with
  | .range a b =>
    (replaceList line a b (beforeStr ++ listSlice line a b ++ afterStr), none)
  | .caret c =>
    match wordAt c with
    | some (a, b) =>
      (replaceList line a b (beforeStr ++ listSlice line a b ++ afterStr),
        some ((c : Int) + beforeStr.length))
    | none =>
      (replaceList line c c (beforeStr ++ afterStr), some ((c : Int) + beforeStr.length))

/-! ### `toggleTag` and its regex scans -/

/-- Does `pat` occur in `s` starting exactly at index `i`? -/
def substrAt (s pat : List Char) (i : Nat) : Bool :=
  decide ((s.drop i).take pat.length = pat)

/-- The literal `<tag>` token. -/
def openTok (tag : List Char) : List Char := '<' :: (tag ++ [ '>' ])

/-- The literal `</tag>` token. -/
def closeTok (tag : List Char) : List Char := '<' :: ('/' :: (tag ++ [ '>' ]))

/-- Model of the scan `new RegExp(`<tag>(?!.*</tag>)`).exec(s)`: the first index of `<tag>`
that has no later occurrence of `</tag>` in `s`. -/
def findOpen (tag s : List Char) : Option Nat :=
  (List.range (s.length + 1)).find? (fun i =>
    substrAt s (openTok tag) i &&
      !((List.range (s.length + 1)).any (fun j =>
        decide (i + (openTok tag).length ≤ j) && substrAt s (closeTok tag) j)))

/-- Model of the scan `new RegExp(`(?!<tag>.*)</tag>`).exec(s)`: the first index where `<tag>`
does not match but `</tag>` does. -/
def findClose (tag s : List Char) : Option Nat :=
  (List.range (s.length + 1)).find? (fun i =>
    !(substrAt s (openTok tag) i) && substrAt s (closeTok tag) i)

/-- Model of `toggleTag(editor, tagName)`.  Two collapse attempts, each matching an
opening tag in one caret-relative slice of the line and a closing tag in the
complementary slice; if neither attempt finds both, fall through to
`wrapSelection`.  Returns the new line and the cursor offset the source
passes to `setSelection` (when `endSelection` is set). -/
def toggleTag (line tag : List Char) (sel : Sel)
    (wordAt : Nat → Option (Nat × Nat)) : List Char × Option Int :=
  let c : Nat := sel.cursorPos
  let oTok := openTok tag
  let cTok := closeTok tag
  let tl1 : Int := (tag.length : Int) + 1
  match findOpen tag (jsSlice line 0 ((c : Int) + tl1)),
      findClose tag (jsSlice line ((c : Int) + tl1) line.length) with
  | some oi, some ci =>
    let endI : Int := (c : Int) + tl1 + ci
    let newStr := jsSlice line ((oi : Int) + oTok.length) endI
    let newLine := replaceListI line (oi : Int) (endI + cTok.length) newStr
    (newLine, some ((c : Int) - min ((c : Int) - oi) (oTok.length : Int)))
  | _, _ =>
    match findOpen tag (jsSlice line 0 ((c : Int) - tl1)),
        findClose tag (jsSlice line ((c : Int) - tl1) line.length) with
    | some oi, some ci =>
      let endI : Int := (c : Int) - tl1 + ci
      let newStr := jsSlice line ((oi : Int) + oTok.length) endI
      let newLine := replaceListI line (oi : Int) (endI + cTok.length) newStr
      (newLine, some ((c : Int) - (max 0 (tl1 - ci) + oTok.length)))
    | _, _ => wrapSelection oTok cTok line sel wordAt

/-! ### `toggleStyle` -/

/-- The style names `toggleStyle` is invoked with (the keys of its map). -/
inductive Style where
  | strong | em | comment | strikethrough | highlight | inlineCode
deriving DecidableEq

/-- The source's hardcoded delimiter map. -/
def delims : Style → List Char × List Char
  | .strong => ("**".toList, "**".toList)
  | .em => ("*".toList, "*".toList)
  | .comment => ("<!-- ".toList, " -->".toList)
  | .strikethrough => ("~~".toList, "~~".toList)
  | .highlight => ("==".toList, "==".toList)
  | .inlineCode => ("`".toList, "`".toList)

/-- A rendered span (`cmView`) of the style class being queried:
its source extent and whether it also carries `.cm-formatting`.
`isStyle` records whether the span matches `.cm-<style>` for the requested
style (relevant for siblings, which may be unrelated spans). -/
structure CmNode where
  start : Nat
  stop : Nat
  isFormatting : Bool
  isStyle : Bool
deriving DecidableEq

/-- The DOM neighbourhood of `selection.focusNode.parentNode?.closest('.cm-<style>')`:
the found node and its (up to two) element siblings in each direction. -/
structure NodeCtx where
  node : CmNode
  next : Option CmNode
  next2 : Option CmNode
  prev : Option CmNode
  prev2 : Option CmNode
deriving DecidableEq

/-- Model of `n?.matches('.cm-<style>:not(.cm-formatting)')`. -/
def matchesContent (n : Option CmNode) : Bool :=
  match n with
  | some m => m.isStyle && !m.isFormatting
  | none => false

/-- Model of `n?.matches('.cm-<style>.cm-formatting')`. -/
def matchesFormatting (n : Option CmNode) : Bool :=
  match n with
  | some m => m.isStyle && m.isFormatting
  | none => false

/-- The `range` array built by `toggleStyle` from the closest node and its
siblings (source lines 363-403): starting from `[node]`, push the two
companion spans of a (formatting, content, formatting) triple when the
sibling classes match, in the order the source pushes them. -/
def detectRange (ctx : NodeCtx) : List CmNode :=
  if ctx.node.isFormatting then
    if matchesContent ctx.next && matchesFormatting ctx.next2 then
      ctx.node :: (ctx.next.toList ++ ctx.next2.toList)
    else if matchesContent ctx.prev && matchesFormatting ctx.prev2 then
      ctx.node :: (ctx.prev.toList ++ ctx.prev2.toList)
    else [ctx.node]
  else if matchesFormatting ctx.prev && matchesFormatting ctx.next then
    ctx.node :: (ctx.prev.toList ++ ctx.next.toList)
  else [ctx.node]

/-- Model of `range.sort((a, b) => a.posAtStart - b.posAtStart)` on three elements. -/
def sort3 (a b c : CmNode) : CmNode × CmNode × CmNode :=
  if a.start ≤ b.start then
    if b.start ≤ c.start then (a, b, c)
    else if a.start ≤ c.start then (a, c, b)
    else (c, a, b)
  else
    if a.start ≤ c.start then (b, a, c)
    else if b.start ≤ c.start then (b, c, a)
    else (c, b, a)

/-- Result of a toggle operation: either no document mutation, or a new line
together with the cursor offset passed to `setCursor` (if any). -/
inductive EditResult where
  | noEdit : EditResult
  | edited (line : List Char) (cursor : Option Int) : EditResult
deriving DecidableEq

/-- The caret fall-through of `toggleStyle` (source lines 426-432 plus the
shared tail): no word at the caret is a plain return; otherwise wrap the
word and restore the caret shifted right by the prefix delimiter length. -/
def caretWordWrap (line : List Char) (c : Nat)
    (wordAt : Nat → Option (Nat × Nat)) (style : Style) : EditResult :=
  match wordAt c with
  | none => .noEdit
  | some (a, b) =>
    .edited (replaceList line a b ((delims style).1 ++ listSlice line a b ++ (delims style).2))
      (some ((c : Int) + (delims style).1.length))

/-- Model of `toggleStyle(editor, style)`.  A non-empty selection is wrapped
unconditionally.  For a caret: if a `.cm-<style>` ancestor exists, a comment
style strips the literal markers from the node's extent; otherwise, if the
sibling inspection yields a full triple, collapse it (replace from the first
marker's start to the last marker's end with the content span's text,
repositioning the caret by the source's min/max arithmetic); otherwise fall
through to the word wrap. -/
def toggleStyle (line : List Char) (sel : Sel) (ctx : Option NodeCtx)
    (wordAt : Nat → Option (Nat × Nat)) (style : Style) : EditResult :=
  match sel with
  | .range a b =>
    .edited (replaceList line a b ((delims style).1 ++ listSlice line a b ++ (delims style).2)) none
  | .caret c =>
    match ctx with
    | some nctx =>
      if style = .comment then
        .edited (replaceList line nctx.node.start nctx.node.stop
          (stripComment (listSlice line nctx.node.start nctx.node.stop))) none
      else
        match detectRange nctx with
        | [n1, n2, n3] =>
          let s := sort3 n1 n2 n3
          let r0 := s.1
          let r1 := s.2.1
          let r2 := s.2.2
          let len0 : Int := (r0.stop : Int) - r0.start
          let no1 : Int := max ((c : Int) - len0) (r0.start : Int)
          let no2 : Int := min no1 ((r2.start : Int) - len0)
          .edited (replaceList line r0.start r2.stop (listSlice line r1.start r1.stop)) (some no2)
        | _ => caretWordWrap line c wordAt style
    | none => caretWordWrap line c wordAt style

/-- Host-rendering model: the `NodeCtx` the editor's renderer produces when
the wrapped construct for `style`, with content length `clen`, occupies the
line starting at offset `a` (content at `a + needed delimiter length`).
Comments render as a single opaque span over the whole construct; the other
styles render as a (formatting, content, formatting) sibling triple with the
caret's closest `.cm-<style>` ancestor being the content span. -/
def wrappedCtx (style : Style) (a clen : Nat) : NodeCtx :=
  let p := (delims style).1.length
  let s := (delims style).2.length
  if style = .comment then
    ⟨⟨a, a + p + clen + s, false, true⟩, none, none, none, none⟩
  else
    ⟨⟨a + p, a + p + clen, false, true⟩,
      some ⟨a + p + clen, a + p + clen + s, true, true⟩, none,
      some ⟨a, a + p, true, true⟩, none⟩

/-! ### `toggleLink` -/

/-- Match the regex `\[([^\]]*)\]\([^)]*\)` anchored at index `i`;
returns the match length and the captured link text. -/
def matchMdAt (line : List Char) (i : Nat) : Option (Nat × List Char) :=
  if line.get? i = some '[' then
    let rest := line.drop (i + 1)
    let t := rest.takeWhile (fun ch => ch != ']')
    let rest2 := rest.drop t.length
    if rest2.get? 0 = some ']' then
      if rest2.get? 1 = some '(' then
        let u := (rest2.drop 2).takeWhile (fun ch => ch != ')')
        if (rest2.drop 2).get? u.length = some ')' then
          some (t.length + u.length + 4, t)
        else none
      else none
    else none
  else none

/-- Model of `re.exec(line.slice(x))` for the markdown-link regex, with the index
reported in absolute line coordinates: the leftmost match at or after `x`. -/
def findMdFrom (line : List Char) (x : Nat) : Option (Nat × Nat × List Char) :=
  (List.range (line.length + 1)).findSome? (fun i =>
    if i < x then none
    else
      match matchMdAt line i with
      | some (len, t) => some (i, len, t)
      | none => none)

/-- The markdown-link branch's scan loop: starting at `x`, take the first
match; accept it if its span contains the caret (caret at or inside the
match, or exactly at its trailing boundary), else continue after it. -/
def mdScan (line : List Char) (c : Nat) : Nat → Nat → Option (Nat × Nat × List Char)
  | _, 0 => none
  | x, fuel + 1 =>
    match findMdFrom line x with
    | none => none
    | some (idx, len, t) =>
      if (c ≥ idx ∧ c < idx + len) ∨ (c > idx ∧ c ≤ idx + len) then some (idx, len, t)
      else mdScan line c (idx + len) fuel

/-- First index of a `]]` pair in `l` (the lazy `(.*?)` stop of the wiki
regex). -/
def findDoubleClose (l : List Char) : Option Nat :=
  (List.range (l.length + 1)).find? (fun j =>
    decide (l.get? j = some ']' ∧ l.get? (j + 1) = some ']'))

/-- Match the regex `\[\[(.*?)\]\]` anchored at index `i`. -/
def matchWikiAt (line : List Char) (i : Nat) : Option (Nat × List Char) :=
  if line.get? i = some '[' ∧ line.get? (i + 1) = some '[' then
    match findDoubleClose (line.drop (i + 2)) with
    | some j => some (j + 4, (line.drop (i + 2)).take j)
    | none => none
  else none

/-- Leftmost wiki-link match at or after `x`, in absolute coordinates. -/
def findWikiFrom (line : List Char) (x : Nat) : Option (Nat × Nat × List Char) :=
  (List.range (line.length + 1)).findSome? (fun i =>
    if i < x then none
    else
      match matchWikiAt line i with
      | some (len, t) => some (i, len, t)
      | none => none)

/-- The wiki-link branch's scan loop (strict containment only). -/
def wikiScan (line : List Char) (c : Nat) : Nat → Nat → Option (Nat × Nat × List Char)
  | _, 0 => none
  | x, fuel + 1 =>
    match findWikiFrom line x with
    | none => none
    | some (idx, len, t) =>
      if c ≥ idx ∧ c < idx + len then some (idx, len, t)
      else wikiScan line c (idx + len) fuel

/-- Model of `match[1].split('|')[1]` when a pipe is present: the segment between the
first and second pipe. -/
def wikiAlias (t : List Char) : List Char :=
  if t.contains '|' then
    ((t.dropWhile (fun ch => ch != '|')).drop 1).takeWhile (fun ch => ch != '|')
  else t

/-- The caret's rendered context as read by `toggleLink`:
`closest('.cm-link, .cm-url')`, `closest('.cm-hmd-internal-link')`, or
neither. -/
inductive LinkCtx where
  | mdLink | wikiLink | plain
deriving DecidableEq

/-- Result of `toggleLink`: a text edit with the final caret offset, a
delegation to the host's `editor:insert-link` command (with the word range
selected first, when a caret sat on a word), or no effect. -/
inductive LinkResult where
  | edited (line : List Char) (cursor : Int) : LinkResult
  | insertLink (selectWord : Option (Nat × Nat)) : LinkResult
  | noop : LinkResult
deriving DecidableEq

/-- Model of `toggleLink(editor)`. -/
def toggleLink (line : List Char) (c : Nat) (ctx : LinkCtx) (sel : Sel)
    (wordAt : Nat → Option (Nat × Nat)) : LinkResult :=
  match ctx with
  | .mdLink =>
    match mdScan line c 0 (line.length + 1) with
    | none => .noop
    | some (idx, len, t) =>
      let newLine := replaceList line idx (idx + len) t
      let c2 : Int :=
        if (c : Int) ≥ (idx : Int) + t.length then (idx : Int) + t.length - 1
        else if (c : Int) > (idx : Int) + 1 then (c : Int) - 1
        else (idx : Int)
      .edited newLine c2
  | .wikiLink =>
    match wikiScan line c 0 (line.length + 1) with
    | none => .noop
    | some (idx, len, t0) =>
      let t := wikiAlias t0
      let newLine := replaceList line idx (idx + len) t
      let c2 : Int :=
        if (c : Int) ≥ (idx : Int) + t.length then (idx : Int) + t.length - 1
        else if (c : Int) > (idx : Int) + 2 then (c : Int) - 2
        else (idx : Int)
      .edited newLine c2
  | .plain =>
    match sel with
    | .caret cc => .insertLink (wordAt cc)
    | .range _ _ => .insertLink none

/-! ### `toggleHeading` -/

/-- Model of `toggleHeading(editor, level?)`: the level passed to the host's
`setHeading` — 0 (un-set) when no level was given or the line already starts
with that heading marker, else the given level. -/
def toggleHeadingLevel (line : List Char) (level : Option Nat) : Nat :=
  match level with
  | none => 0
  | some lv =>
    if (List.replicate lv '#' ++ [ ' ' ]).isPrefixOf line then 0 else lv

/-! ### The keydown dispatcher -/

/-- A raw keyboard event as the dispatcher reads it. -/
structure KeyEvent where
  key : String
  ctrlKey : Bool
  altKey : Bool
  metaKey : Bool
  shiftKey : Bool
deriving DecidableEq

/-- The side effects the dispatcher can perform, in source order. -/
inductive HostAction where
  | clipboardWrite (text : String) : HostAction
  | notice (text : String) : HostAction
  | docKeydown (key : String) : HostAction
  | clickPrevTab : HostAction
  | clickNextTab : HostAction
  | removeProperties : HostAction
  | clickActiveElement : HostAction
  | treeArrowLeft : HostAction
  | treeArrowDown : HostAction
  | treeArrowUp : HostAction
  | treeKeyOpen : HostAction
  | toggleCollapsed : HostAction
  | paneKeydownEnter : HostAction
  | execCommand (id : String) : HostAction
  | deleteSelectedItems : HostAction
  | renameFocusedItem : HostAction
  | clickConfirmButton : HostAction
  | createNewFolder : HostAction
  | createNewMarkdownFile : HostAction
  | setActiveLeafPopover : HostAction
  | hidePopover : HostAction
  | spawnPopoverOpenFile : HostAction
  | scrollTreeTo (top : Int) : HostAction
  | setFocusedFirst : HostAction
  | setFocusedLast : HostAction
  | clickNavButton (label : String) : HostAction
  | canvasSelectFirstNode : HostAction
  | canvasSetTransform (x y : Int) : HostAction
  | canvasDeleteSelection : HostAction
  | canvasStartEditing : HostAction
  | scrollBy (top left : Int) : HostAction
  | viewKeydown (key : String) : HostAction
  | pdfZoomIn : HostAction
  | pdfZoomOut : HostAction
deriving DecidableEq

/-- The focused item of a navigation tree (`tree.focusedItem`). -/
structure TreeItemM where
  collapsible : Bool
  filePath : Option String
  fileHasChildren : Bool
  innerText : String
deriving DecidableEq

/-- A view's navigation tree handle (`view.tree`), when the view has one. -/
structure TreeM where
  focusedItem : Option TreeItemM
  scrollHeight : Int
deriving DecidableEq

/-- The scrollable element `v` of the preview-like branch. -/
structure ScrollEnv where
  scrollTop : Int
  scrollHeight : Int
  scrollWidth : Int
deriving DecidableEq

/-- All ambient host state `keydownListener` reads: the active leaf/view,
`document.activeElement` classification, `document.querySelector` probes,
and the per-view handles.  Read fresh on every keystroke. -/
structure DispatchEnv where
  activeLeaf : Bool
  viewType : String
  tree : Option TreeM
  pane : Bool
  basePath : String
  promptInputActive : Bool
  paneInSidedock : Bool
  activeTag : String
  textboxLikeActive : Bool
  popoverMarkerPresent : Bool
  renamingInPane : Bool
  propertyFocused : Bool
  propsHeadingActive : Bool
  confirmDialog : Bool
  confirmWarningButton : Bool
  paneLeftSplit : Bool
  paneRightSplit : Bool
  sortButton : Bool
  searchButton : Bool
  collapseAllButton : Bool
  expandAllButton : Bool
  hoverPlugin : Option (List (Option String))
  canvasSelectionCount : Nat
  canvasTransform : Option (Int × Int)
  canvasSelectedForEdit : Bool
  markdownMode : String
  kanbanCellEditing : Bool
  previewEl : Option ScrollEnv
deriving DecidableEq

/-- What one `keydownListener` call did: whether `e.preventDefault()` was
called, and the host actions performed, in order. -/
structure DispatchResult where
  prevented : Bool
  actions : List HostAction
deriving DecidableEq

/-- A call either returns normally or throws a `TypeError` on an unguarded
dereference of a missing host object; the payload records what had already
happened by then. -/
inductive Outcome where
  | ok (r : DispatchResult) : Outcome
  | thrown (sofar : DispatchResult) : Outcome
deriving DecidableEq

/-- Whether `preventDefault` was called (also when the handler then threw). -/
def outcomePrevented : Outcome → Bool
  | .ok r => r.prevented
  | .thrown r => r.prevented

/-- The actions performed (also when the handler then threw). -/
def outcomeActions : Outcome → List HostAction
  | .ok r => r.actions
  | .thrown r => r.actions

/-- Model of `tree.focusedItem.file.path`: `none` means some link of the chain is
missing and the dereference throws. -/
def treeFocusedPathOpt (env : DispatchEnv) : Option String :=
  (env.tree.bind (fun t => t.focusedItem)).bind (fun it => it.filePath)

/-- The view types of the main dispatch's `includes` list; every other view
type takes the tree-like branch. -/
def viewTypeList : List String :=
  ["markdown", "kanban", "canvas", "lineage", "pdf", "empty", "bases"]

/-- Result of the tree-like branch's key switch (after the unconditional
`preventDefault`): the actions performed, or a crash with the actions
performed before the throwing dereference. -/
inductive TreeStep where
  | done (acts : List HostAction) : TreeStep
  | crash (acts : List HostAction) : TreeStep
deriving DecidableEq

/-- The key switch of the tree-like (sidebar) branch, source lines 785-938.
`tree?.`-style accesses are no-ops without a tree; the unguarded accesses
(`g`/`G`, and the file-explorer cases that read `tree.focusedItem...`)
crash without one. -/
def treeKeyCore (env : DispatchEnv) (e : KeyEvent) : TreeStep :=
  if e.key = "h" then
    .done (match env.tree with | some _ => [HostAction.treeArrowLeft] | none => [])
  else if e.key = "j" ∨ e.key = "J" then
    .done (match env.tree with | some _ => [HostAction.treeArrowDown] | none => [])
  else if e.key = "k" ∨ e.key = "K" then
    .done (match env.tree with | some _ => [HostAction.treeArrowUp] | none => [])
  else if e.key = "l" ∨ e.key = "o" then
    match env.tree with
    | none => .done []
    | some t =>
      match t.focusedItem with
      | none => .crash []
      | some it =>
        if it.collapsible then
          if e.key = "o" ∨ env.viewType = "file-explorer" then .done [HostAction.toggleCollapsed]
          else .done [HostAction.treeKeyOpen]
        else
          .done ([HostAction.treeKeyOpen] ++
            (if env.viewType = "file-explorer" then [HostAction.execCommand "app:toggle-left-sidebar"] else []))
  else if e.key = "L" ∨ e.key = "O" then
    .done ([HostAction.paneKeydownEnter] ++
      (if env.viewType = "file-explorer" then [HostAction.execCommand "app:toggle-left-sidebar"] else []))
  else if e.key = "d" then
    if env.viewType = "file-explorer" then
      if env.confirmDialog then
        if env.confirmWarningButton then .done [HostAction.clickConfirmButton] else .crash []
      else
        match env.tree with
        | none => .crash []
        | some _ => .done [HostAction.deleteSelectedItems]
    else .done []
  else if e.key = "r" then
    if env.viewType = "file-explorer" then
      match env.tree with
      | none => .crash []
      | some _ => .done [HostAction.renameFocusedItem]
    else .done []
  else if e.key = "a" ∨ e.key = "A" then
    if env.viewType = "file-explorer" then
      match env.tree with
      | none => .crash []
      | some t =>
        match t.focusedItem with
        | none => .crash []
        | some it =>
          match it.filePath with
          | none => .done []
          | some _ =>
            .done [if e.shiftKey then HostAction.createNewFolder else HostAction.createNewMarkdownFile]
    else .done []
  else if e.key = "P" then
    if env.viewType = "file-explorer" then
      match env.hoverPlugin with
      | none => .crash []
      | some pops =>
        match pops with
        | [entry] =>
          match entry with
          | none => .crash []
          | some lp =>
            match treeFocusedPathOpt env with
            | none => .crash []
            | some fp =>
              if lp = fp then .done [HostAction.setActiveLeafPopover]
              else .done [HostAction.hidePopover, HostAction.spawnPopoverOpenFile]
        | _ =>
          match env.tree.bind (fun t => t.focusedItem) with
          | none => .crash (pops.map (fun _ => HostAction.hidePopover))
          | some _ => .done (pops.map (fun _ => HostAction.hidePopover) ++ [HostAction.spawnPopoverOpenFile])
    else .done []
  else if e.key = "y" then
    if env.viewType = "file-explorer" then
      match treeFocusedPathOpt env with
      | none => .crash []
      | some p =>
        .done [HostAction.clipboardWrite (stripMdSuffix p),
          HostAction.notice ("Yanked: " ++ stripMdSuffix p)]
    else
      match env.tree.bind (fun t => t.focusedItem) with
      | none => .crash []
      | some it =>
        .done [HostAction.clipboardWrite it.innerText, HostAction.notice ("Yanked: " ++ it.innerText)]
  else if e.key = "Y" then
    if env.viewType = "file-explorer" then
      match treeFocusedPathOpt env with
      | none => .crash []
      | some p =>
        .done [HostAction.clipboardWrite (env.basePath ++ "/" ++ p),
          HostAction.notice ("Yanked: " ++ (env.basePath ++ "/" ++ p))]
    else .done []
  else if e.key = "g" then
    match env.tree with
    | none => .crash []
    | some _ => .done [HostAction.scrollTreeTo 0, HostAction.setFocusedFirst]
  else if e.key = "G" then
    match env.tree with
    | none => .crash []
    | some t => .done [HostAction.scrollTreeTo t.scrollHeight, HostAction.setFocusedLast]
  else if e.key = "q" then
    if env.paneLeftSplit then .done [HostAction.execCommand "app:toggle-left-sidebar"]
    else if env.paneRightSplit then .done [HostAction.execCommand "app:toggle-right-sidebar"]
    else .done []
  else if e.key = "S" then
    .done (if env.sortButton then [HostAction.clickNavButton "Change sort order"] else [])
  else if e.key = "/" then
    .done (if env.searchButton then [HostAction.clickNavButton "Show search filter"] else [])
  else if e.key = "\x7b" then
    .done (if env.collapseAllButton then [HostAction.clickNavButton "Collapse all"] else [])
  else if e.key = "\x7d" then
    .done (if env.expandAllButton then [HostAction.clickNavButton "Expand all"] else [])
  else .done []

/-- The tree-like branch: `e.preventDefault()` unconditionally on entry,
then the key switch. -/
def treeBranch (env : DispatchEnv) (e : KeyEvent) : Outcome :=
  match treeKeyCore env e with
  | .done acts => .ok ⟨true, acts⟩
  | .crash acts => .thrown ⟨true, acts⟩

/-- The empty-view branch's key-to-command map. -/
def emptyCommands (k : String) : Option String :=
  if k = "e" then some "file-explorer:new-file"
  else if k = "f" then some "obsidian-another-quick-switcher:search-command_recommended-search"
  else if k = "g" then some "omnisearch:show-modal"
  else if k = "r" then some "obsidian-another-quick-switcher:search-command_recent-search"
  else if k = "q" then some "obsidian-custom-commands:close"
  else none

/-- The empty-view branch: `preventDefault` and execute only for mapped keys. -/
def emptyBranch (e : KeyEvent) : Outcome :=
  match emptyCommands e.key with
  | some cid => .ok ⟨true, [HostAction.execCommand cid]⟩
  | none => .ok ⟨false, []⟩

/-- The canvas navigate/create/zoom key map (`advanced-canvas:` commands). -/
def canvasCommandFor (k : String) : String :=
  if k = "j" then "advanced-canvas:navigate-down"
  else if k = "k" then "advanced-canvas:navigate-up"
  else if k = "h" then "advanced-canvas:navigate-left"
  else if k = "l" then "advanced-canvas:navigate-right"
  else if k = "t" then "advanced-canvas:create-text-node"
  else if k = "f" then "advanced-canvas:create-file-node"
  else "advanced-canvas:zoom-to-selection"

/-- The canvas branch's key switch: actions performed during the switch, and
the `command` variable set by the navigate/create/zoom cases.  The pan keys
rewrite the translate components parsed out of the canvas transform string;
a transform that does not match the pattern is left unchanged. -/
def canvasCore (env : DispatchEnv) (e : KeyEvent) : List HostAction × Option String :=
  if e.key = "j" ∨ e.key = "k" ∨ e.key = "h" ∨ e.key = "l" ∨ e.key = "t" ∨ e.key = "f" ∨ e.key = "z" then
    ((if env.canvasSelectionCount = 0 then [HostAction.canvasSelectFirstNode] else []),
      some (canvasCommandFor e.key))
  else if e.key = "J" ∨ e.key = "K" ∨ e.key = "H" ∨ e.key = "L" then
    ((match env.canvasTransform with
      | some (x, y) =>
        if e.key = "J" then [HostAction.canvasSetTransform x (y - 10)]
        else if e.key = "K" then [HostAction.canvasSetTransform x (y + 10)]
        else if e.key = "H" then [HostAction.canvasSetTransform (x + 10) y]
        else [HostAction.canvasSetTransform (x - 10) y]
      | none => []), none)
  else if e.key = "d" then ([HostAction.canvasDeleteSelection], none)
  else if e.key = "i" then
    ((if env.canvasSelectedForEdit then [HostAction.canvasStartEditing] else []), none)
  else if e.key = "/" then
    ((if env.searchButton then [HostAction.clickNavButton "Show search filter"] else []), none)
  else ([], none)

/-- The canvas branch: `if (command) \x7b preventDefault; execute \x7d` after the
switch. -/
def canvasBranch (env : DispatchEnv) (e : KeyEvent) : Outcome :=
  match canvasCore env e with
  | (acts, some cid) => .ok ⟨true, acts ++ [HostAction.execCommand cid]⟩
  | (acts, none) => .ok ⟨false, acts⟩

/-- The scroll/command/synthetic-event plan the preview-like branch's key
switch computes. -/
structure PreviewPlan where
  top : Option Int
  left : Option Int
  command : Option String
  event : Option String
deriving DecidableEq

/-- A plan with nothing set. -/
def emptyPlan : PreviewPlan := ⟨none, none, none, none⟩

/-- The preview-like branch's key switch: the plan plus the actions performed
immediately inside the switch (the PDF zoom clicks).  `none` models the
`TypeError` thrown by the `v!.scroll...` reads when the scroll container is
missing. -/
def previewSwitch (env : DispatchEnv) (e : KeyEvent) : Option (PreviewPlan × List HostAction) :=
  if e.key = "j" then some ({ emptyPlan with top := some 5 }, [])
  else if e.key = "k" then some ({ emptyPlan with top := some (-5) }, [])
  else if e.key = "d" then some ({ emptyPlan with top := some 200 }, [])
  else if e.key = "u" then some ({ emptyPlan with top := some (-200) }, [])
  else if e.key = "f" then some ({ emptyPlan with event := some "PageDown" }, [])
  else if e.key = "b" then some ({ emptyPlan with event := some "PageUp" }, [])
  else if e.key = "g" then
    match env.previewEl with
    | none => none
    | some v => some ({ emptyPlan with top := some (-v.scrollTop) }, [])
  else if e.key = "G" then
    match env.previewEl with
    | none => none
    | some v => some ({ emptyPlan with top := some v.scrollHeight }, [])
  else if e.key = "h" then some ({ emptyPlan with left := some (-15) }, [])
  else if e.key = "H" then
    match env.previewEl with
    | none => none
    | some v => some ({ emptyPlan with left := some (-v.scrollWidth) }, [])
  else if e.key = "l" then some ({ emptyPlan with left := some 15 }, [])
  else if e.key = "L" then
    match env.previewEl with
    | none => none
    | some v => some ({ emptyPlan with left := some v.scrollWidth }, [])
  else if e.key = "q" ∨ e.key = "i" then
    some ((if env.viewType = "markdown" then { emptyPlan with command := some "markdown:toggle-preview" }
      else emptyPlan), [])
  else if e.key = "[" then some ({ emptyPlan with command := some "app:go-back" }, [])
  else if e.key = "]" then some ({ emptyPlan with command := some "app:go-forward" }, [])
  else if e.key = "/" then some ({ emptyPlan with command := some "editor:open-search" }, [])
  else if e.key = "+" then
    some (emptyPlan, if env.viewType = "pdf" then [HostAction.pdfZoomIn] else [])
  else if e.key = "-" then
    some (emptyPlan, if env.viewType = "pdf" then [HostAction.pdfZoomOut] else [])
  else some (emptyPlan, [])

/-- JS truthiness of the `top`/`left` numbers (`0` and `undefined` are falsy). -/
def truthyOpt : Option Int → Bool
  | some t => t != 0
  | none => false

/-- Whether the plan resolved a concrete action (a nonzero scroll delta, a
command, or a synthetic key event). -/
def planResolved (p : PreviewPlan) : Bool :=
  truthyOpt p.top || truthyOpt p.left || p.command.isSome || p.event.isSome

/-- The `if (top) ... else if (left) ... else if (command) ... else if (event)`
tail of the preview-like branch; `v?.scrollBy` and `v?.dispatchEvent` are
skipped when the container is missing, but `preventDefault` still fires. -/
def previewFinish (env : DispatchEnv) (acts : List HostAction) (p : PreviewPlan) : Outcome :=
  if truthyOpt p.top then
    .ok ⟨true, acts ++ (if env.previewEl.isSome then [HostAction.scrollBy (p.top.getD 0) 0] else [])⟩
  else if truthyOpt p.left then
    .ok ⟨true, acts ++ (if env.previewEl.isSome then [HostAction.scrollBy 0 (p.left.getD 0)] else [])⟩
  else
    match p.command with
    | some cid => .ok ⟨true, acts ++ [HostAction.execCommand cid]⟩
    | none =>
      match p.event with
      | some k => .ok ⟨true, acts ++ (if env.previewEl.isSome then [HostAction.viewKeydown k] else [])⟩
      | none => .ok ⟨false, acts⟩

/-- The preview-like branch (markdown preview mode, PDF, kanban, bases):
kanban bails out while a card editor is focused; otherwise run the key
switch and its resolution tail. -/
def previewBranch (env : DispatchEnv) (e : KeyEvent) : Outcome :=
  if env.viewType = "kanban" ∧ env.kanbanCellEditing = true then .ok ⟨false, []⟩
  else
    match previewSwitch env e with
    | none => .thrown ⟨false, []⟩
    | some (p, acts) => previewFinish env acts p

/-- The main view-type dispatch (after all guards). -/
def mainDispatch (env : DispatchEnv) (e : KeyEvent) : Outcome :=
  if ¬ (env.viewType ∈ viewTypeList) then treeBranch env e
  else if env.viewType = "empty" then emptyBranch e
  else if env.viewType = "canvas" then canvasBranch env e
  else if (env.viewType = "markdown" ∧ env.markdownMode = "preview")
      ∨ env.viewType = "pdf" ∨ env.viewType = "kanban" ∨ env.viewType = "bases" then
    previewBranch env e
  else .ok ⟨false, []⟩

/-- Model of `keydownListener(e)`: the guard chain, the two focus-sensitive special
cases, then the main view-type dispatch. -/
def keydownListener (env : DispatchEnv) (e : KeyEvent) : Outcome :=
  if env.activeLeaf = false then .ok ⟨false, []⟩
  else if e.metaKey = true ∧ e.key = "c" ∧ env.viewType = "file-explorer" then
    match treeFocusedPathOpt env with
    | none => .thrown ⟨false, []⟩
    | some p => .ok ⟨false, [HostAction.clipboardWrite (env.basePath ++ "/" ++ p)]⟩
  else if env.promptInputActive = true ∧ (e.key = "j" ∨ e.key = "k") ∧ e.ctrlKey = true then
    .ok ⟨true, [HostAction.docKeydown (if e.key = "j" then "arrowdown" else "arrowup")]⟩
  else if env.pane = true ∧ env.paneInSidedock = true ∧ (e.key = "n" ∨ e.key = "p") ∧ e.ctrlKey = true then
    .ok ⟨false, [if e.key = "p" then HostAction.clickPrevTab else HostAction.clickNextTab]⟩
  else if env.activeTag = "INPUT" ∨ env.activeTag = "TEXTAREA" ∨ env.textboxLikeActive = true
      ∨ env.popoverMarkerPresent = true ∨ env.pane = false ∨ env.renamingInPane = true
      ∨ e.ctrlKey = true ∨ e.altKey = true ∨ e.metaKey = true then
    .ok ⟨false, []⟩
  else if env.propertyFocused = true then
    if e.key = "d" then .ok ⟨false, [HostAction.removeProperties]⟩ else .ok ⟨false, []⟩
  else if env.propsHeadingActive = true then
    if e.key = "l" ∨ e.key = "o" then .ok ⟨false, [HostAction.clickActiveElement]⟩
    else .ok ⟨false, []⟩
  else mainDispatch env e

/-- The text-input-like classification of `document.activeElement` from the
pass-through guard: tag `INPUT` or `TEXTAREA`, or matching
`[class*="metadata-input"], [role="textbox"], [contenteditable="true"]`. -/
def textInputLike (env : DispatchEnv) : Prop :=
  env.activeTag = "INPUT" ∨ env.activeTag = "TEXTAREA" ∨ env.textboxLikeActive = true

/-- The event reaches the main view-type dispatch: a leaf is active, focus is
not in any text-editing surface, no blocking popover/rename, no modifier
held, and neither focus-sensitive special case applies.  (With no modifier
held, the three leading guard shortcuts cannot fire.) -/
def reachesMainDispatch (env : DispatchEnv) (e : KeyEvent) : Prop :=
  env.activeLeaf = true ∧ env.activeTag ≠ "INPUT" ∧ env.activeTag ≠ "TEXTAREA"
    ∧ env.textboxLikeActive = false ∧ env.popoverMarkerPresent = false ∧ env.pane = true
    ∧ env.renamingInPane = false ∧ e.ctrlKey = false ∧ e.altKey = false ∧ e.metaKey = false
    ∧ env.propertyFocused = false ∧ env.propsHeadingActive = false

/-- A neutral concrete environment for instantiating dispatcher theorems:
an active markdown source view, body focus, no probes firing. -/
def baseEnv : DispatchEnv :=
  { activeLeaf := true, viewType := "markdown", tree := none, pane := true,
    basePath := "/vault", promptInputActive := false, paneInSidedock := false,
    activeTag := "BODY", textboxLikeActive := false, popoverMarkerPresent := false,
    renamingInPane := false, propertyFocused := false, propsHeadingActive := false,
    confirmDialog := false, confirmWarningButton := false, paneLeftSplit := false,
    paneRightSplit := false, sortButton := false, searchButton := false,
    collapseAllButton := false, expandAllButton := false, hoverPlugin := none,
    canvasSelectionCount := 0, canvasTransform := none, canvasSelectedForEdit := false,
    markdownMode := "source", kanbanCellEditing := false, previewEl := none }

/-- A plain key press with no modifiers. -/
def keyOf (k : String) : KeyEvent := ⟨k, false, false, false, false⟩

/-- A key press with the ctrl modifier held. -/
def ctrlKeyOf (k : String) : KeyEvent := ⟨k, true, false, false, false⟩

/-- Concrete rendered context for the line `**bold**` with the caret inside
the leading `**` marker: the closest `.cm-strong` ancestor is the leading
formatting span `[0, 2)`, its next siblings are the content span `[2, 6)`
and the trailing formatting span `[6, 8)`. -/
def ctxLeadMarker : NodeCtx :=
  ⟨⟨0, 2, true, true⟩, some ⟨2, 6, false, true⟩, some ⟨6, 8, true, true⟩, none, none⟩

/-- Concrete rendered context for the line `a **bold** b` with the caret in
the content span `[4, 8)`; its siblings are the formatting spans `[2, 4)`
and `[8, 10)`. -/
def ctxContent : NodeCtx :=
  ⟨⟨4, 8, false, true⟩, some ⟨8, 10, true, true⟩, none, some ⟨2, 4, true, true⟩, none⟩

/-! ## Theorems -/

/-! ### List helper lemmas -/

theorem listSlice_length (l : List Char) (a b : Nat) (hb : b ≤ l.length) :
    (listSlice l a b).length = b - a := by
  simp [listSlice]
  omega

theorem take_slice_drop (l : List Char) (a b : Nat) (hab : a ≤ b) :
    l.take a ++ listSlice l a b ++ l.drop b = l := by
  unfold listSlice
  calc l.take a ++ (l.take b).drop a ++ l.drop b
      = ((l.take b).take a ++ (l.take b).drop a) ++ l.drop b := by
        rw [List.take_take, Nat.min_eq_left hab]
    _ = l.take b ++ l.drop b := by rw [List.take_append_drop]
    _ = l := List.take_append_drop b l

theorem slice_concat (x m z : List Char) :
    listSlice ((x ++ m) ++ z) x.length (x.length + m.length) = m := by
  have h1 : ((x ++ m) ++ z).take (x.length + m.length) = x ++ m := by
    rw [← List.length_append x m]
    exact List.take_left (x ++ m) z
  have h2 : (x ++ m).drop x.length = m := List.drop_left x m
  unfold listSlice
  rw [h1, h2]

theorem replace_concat (x m z w : List Char) :
    replaceList ((x ++ m) ++ z) x.length (x.length + m.length) w = x ++ w ++ z := by
  have h1 : ((x ++ m) ++ z).take x.length = x := by
    rw [List.append_assoc]
    exact List.take_left x (m ++ z)
  have h2 : ((x ++ m) ++ z).drop (x.length + m.length) = z := by
    rw [← List.length_append x m]
    exact List.drop_left (x ++ m) z
  unfold replaceList
  rw [h1, h2]

/-! ### C9: the bounded poll helper -/

theorem pollLoop_resolved {α : Type} (f : Nat → Option α) (t : Nat) (v : α) (k0 : Nat)
    (hk0 : f k0 = some v) (ht : 20 * k0 ≤ t) :
    ∀ fuel k, k ≤ k0 → k0 < fuel + k → (∀ j, k ≤ j → j < k0 → f j = none) →
      pollLoop f t fuel k = .resolved v := by
  intro fuel
  induction fuel with
  | zero => intro k hk hfu _; omega
  | succ n ih =>
    intro k hk _ hnone
    rcases Nat.eq_or_lt_of_le hk with heq | hlt
    · subst heq
      simp [pollLoop, hk0]
    · have hfk : f k = none := hnone k le_rfl hlt
      have hcont : ¬ 20 * (k + 1) > t := by omega
      simp only [pollLoop, hfk, if_neg hcont]
      exact ih (k + 1) hlt (by omega) (fun j hj hj2 => hnone j (by omega) hj2)

theorem pollLoop_timedOut {α : Type} (f : Nat → Option α) (t : Nat)
    (hnone : ∀ k, 20 * k ≤ t → f k = none) :
    ∀ fuel k, 20 * k ≤ t → pollLoop f t fuel k = .timedOut := by
  intro fuel
  induction fuel with
  | zero => intro k _; rfl
  | succ n ih =>
    intro k hk
    have hfk : f k = none := hnone k hk
    by_cases hstop : 20 * (k + 1) > t
    · simp [pollLoop, hfk, hstop]
    · simp only [pollLoop, hfk, if_neg hstop]
      exact ih (k + 1) (by omega)

/-- Claim C9: `sleepUntil(f, timeoutMs)` resolves with the first truthy value
of `f` observed at the 20 ms polling interval, rejects with the timeout error
once more than `timeoutMs` have elapsed with `f` never truthy, and once the
predicate becomes (and stays) truthy within the timeout it resolves rather
than rejects.  (The model is a function, so an outcome is unique: it can
never both resolve and reject.)  Tick `k` is checked at elapsed time
`20 * (k + 1)` ms; the ticks that can still run are exactly those with
`20 * k ≤ timeoutMs`. -/
theorem sleepUntil_spec {α : Type} (f : Nat → Option α) (t : Nat) :
    (∀ v k, f k = some v → 20 * k ≤ t → (∀ j, j < k → f j = none) →
        sleepUntilRun f t = .resolved v)
    ∧ ((∀ k, 20 * k ≤ t → f k = none) → sleepUntilRun f t = .timedOut)
    ∧ ((∀ j k, j ≤ k → (f j).isSome → (f k).isSome) →
        (∃ k, 20 * k ≤ t ∧ (f k).isSome) →
        ∃ v, sleepUntilRun f t = PollResult.resolved v) := by
  refine ⟨?_, ?_, ?_⟩
  · intro v k hk ht hnone
    have hk0 : k ≤ t / 20 := Nat.le_div_iff_mul_le (by omega) |>.mpr (by omega)
    exact pollLoop_resolved f t v k hk ht (t / 20 + 1) 0 (Nat.zero_le k) (by omega)
      (fun j _ hj => hnone j hj)
  · intro hnone
    exact pollLoop_timedOut f t hnone (t / 20 + 1) 0 (by omega)
  · intro hmono hex
    have hdec : DecidablePred (fun k => (f k).isSome = true) := fun k => inferInstance
    obtain ⟨kw, hkw, hsw⟩ := hex
    have hfind : ∃ k, (f k).isSome = true := ⟨kw, hsw⟩
    let k0 := Nat.find hfind
    have hk0s : (f k0).isSome = true := Nat.find_spec hfind
    have hk0min : ∀ j, j < k0 → ¬ (f j).isSome = true := fun j hj => Nat.find_min hfind hj
    have hk0le : k0 ≤ kw := Nat.find_min' hfind hsw
    obtain ⟨v, hv⟩ := Option.isSome_iff_exists.mp hk0s
    refine ⟨v, pollLoop_resolved f t v k0 hv (by omega) (t / 20 + 1) 0 (Nat.zero_le k0) ?_ ?_⟩
    · have : k0 ≤ t / 20 := Nat.le_div_iff_mul_le (by omega) |>.mpr (by omega)
      omega
    · intro j _ hj
      have := hk0min j hj
      cases hfj : f j with
      | none => rfl
      | some w => exact absurd (by simp [hfj]) this

/-- Witness for C9: a predicate that first becomes truthy at tick 2 resolves
with its value under the default 2000 ms timeout. -/
theorem sleepUntil_spec_witness :
    sleepUntilRun (fun k => if k = 2 then some 42 else none) 2000 = PollResult.resolved 42 :=
  (sleepUntil_spec (fun k => if k = 2 then some 42 else none) 2000).1 42 2 rfl (by omega)
    (by decide)

/-! ### C3: caret with no detected construct and no word -/

/-- Counterexample for C3 as stated: on an empty line with the caret at
offset 0, no rendered construct and no word at the caret, `toggleStyle`
performs no edit at all — it does not insert the empty-content delimiter
pair `*``*` (with the caret between the delimiters) that the claim asserts. -/
theorem toggleStyle_noWord_counterexample :
    toggleStyle [] (.caret 0) none (fun _ => none) .em = .noEdit
    ∧ EditResult.noEdit ≠ .edited ("**".toList) (some 1) :=
  ⟨rfl, by decide⟩

/-- Claim C3 (amended): for a caret with no enclosing construct detected and
no word at the caret, `toggleStyle` performs no edit (it returns without
touching the document); the empty-content delimiter insertion — prefix
immediately followed by suffix at the caret, with the caret left between the
two delimiters — is the behaviour of `wrapSelection` (used by `toggleTag`),
not of `toggleStyle`. -/
theorem toggleStyle_noWord_noop (line : List Char) (c : Nat)
    (wordAt : Nat → Option (Nat × Nat)) (style : Style) (beforeStr afterStr : List Char)
    (hw : wordAt c = none) :
    toggleStyle line (.caret c) none wordAt style = .noEdit
    ∧ wrapSelection beforeStr afterStr line (.caret c) wordAt =
        (line.take c ++ beforeStr ++ afterStr ++ line.drop c,
          some ((c : Int) + beforeStr.length)) := by
  constructor
  · simp [toggleStyle, caretWordWrap, hw]
  · simp [wrapSelection, hw, replaceList, List.append_assoc]

/-- Witness for C3: a caret at the end of the line `x` with no word there. -/
theorem toggleStyle_noWord_noop_witness :
    toggleStyle ("x ".toList) (.caret 2) none (fun _ => none) .em = .noEdit
    ∧ wrapSelection ("*".toList) ("*".toList) ("x ".toList) (.caret 2) (fun _ => none) =
        ("x **".toList, some 3) := by
  have h := toggleStyle_noWord_noop ("x ".toList) 2 (fun _ => none) .em
    ("*".toList) ("*".toList) rfl
  exact ⟨h.1, h.2.trans (by decide)⟩

/-! ### C4: non-empty explicit selections wrap unconditionally -/

/-- Claim C4: for a non-empty explicit selection, `toggleStyle` wraps
unconditionally: the selected range is replaced by
prefix ++ selected text ++ suffix, whatever rendered context `ctx` the host
reports and whatever the selected text is (so selecting a literal `**x**`
and toggling strong double-wraps it). -/
theorem toggleStyle_selection_wrap (line : List Char) (a b : Nat) (ctx : Option NodeCtx)
    (wordAt : Nat → Option (Nat × Nat)) (style : Style)
    (hab : a < b) (hb : b ≤ line.length) :
    toggleStyle line (.range a b) ctx wordAt style =
      .edited (line.take a ++ (delims style).1 ++ listSlice line a b ++ (delims style).2
        ++ line.drop b) none := by
  simp [toggleStyle, replaceList, List.append_assoc]

/-- Witness for C4: the selection covering the literal text `**x**` is
double-wrapped to `****x****` — detection is bypassed. -/
theorem toggleStyle_selection_wrap_witness :
    toggleStyle ("**x**".toList) (.range 0 5) none (fun _ => none) .strong
      = .edited ("****x****".toList) none := by
  rw [toggleStyle_selection_wrap ("**x**".toList) 0 5 none (fun _ => none) .strong
    (by decide) (by decide)]
  decide

/-! ### C2: caret collapse of a detected (formatting, content, formatting) triple -/

theorem toggleStyle_collapse_core (line : List Char) (c : Nat) (style : Style) (nctx : NodeCtx)
    (wordAt : Nat → Option (Nat × Nat)) (f1 cont f2 : CmNode)
    (hstyle : ¬ style = .comment)
    (hdet : detectRange nctx = [f1, cont, f2] ∨ detectRange nctx = [f2, cont, f1]
      ∨ detectRange nctx = [cont, f1, f2])
    (h1 : f1.start < f1.stop) (h12 : f1.stop = cont.start) (hc : cont.start < cont.stop)
    (h23 : cont.stop = f2.start) (h2 : f2.start < f2.stop) :
    toggleStyle line (.caret c) (some nctx) wordAt style =
      .edited (replaceList line f1.start f2.stop (listSlice line cont.start cont.stop))
        (some ((f1.start : Int) +
          min (max ((c : Int) - cont.start) 0) ((cont.stop : Int) - cont.start))) := by
  rcases hdet with h | h | h
  · have hsort : sort3 f1 cont f2 = (f1, cont, f2) := by
      unfold sort3
      have ha : f1.start ≤ cont.start := by omega
      have hb : cont.start ≤ f2.start := by omega
      rw [if_pos ha, if_pos hb]
    simp only [toggleStyle, if_neg hstyle, h, hsort]
    congr 2
    omega
  · have hsort : sort3 f2 cont f1 = (f1, cont, f2) := by
      unfold sort3
      have ha : ¬ f2.start ≤ cont.start := by omega
      have hb : ¬ f2.start ≤ f1.start := by omega
      have hcc : ¬ cont.start ≤ f1.start := by omega
      rw [if_neg ha, if_neg hb, if_neg hcc]
    simp only [toggleStyle, if_neg hstyle, h, hsort]
    congr 2
    omega
  · have hsort : sort3 cont f1 f2 = (f1, cont, f2) := by
      unfold sort3
      have ha : ¬ cont.start ≤ f1.start := by omega
      have hb : cont.start ≤ f2.start := by omega
      rw [if_neg ha, if_pos hb]
    simp only [toggleStyle, if_neg hstyle, h, hsort]
    congr 2
    omega

/-- Counterexample for C2 as stated: line `**bold**` with the caret at
offset 1, inside the leading `**` formatting span (which matches
`.cm-strong`); the triple is detected, the construct collapses to `bold`,
but the final caret offset relative to the content start is 0, not the
original caret offset relative to the content start (which is 1 - 2 = -1):
the source also clamps the caret from below at the content start, which the
claim's "clamped so it cannot exceed the remaining content's end" does not
cover. -/
theorem toggleStyle_collapse_counterexample :
    toggleStyle ("**bold**".toList) (.caret 1) (some ctxLeadMarker) (fun _ => none) .strong
      = .edited ("bold".toList) (some 0)
    ∧ ((0 : Int) - 0 ≠ (1 : Int) - 2) :=
  ⟨by decide, by decide⟩

/-- Claim C2 (amended): for a caret in a detected complete
(formatting, content, formatting) triple of the requested style,
`toggleStyle` replaces exactly the range from the first formatting marker's
start to the last formatting marker's end with the inner content text, and
the resulting caret offset relative to the content's start equals the
original caret offset relative to the content's start clamped to lie between
0 and the remaining content's length (it can neither precede the remaining
content's start nor exceed its end). -/
theorem toggleStyle_collapse_spec (line : List Char) (c : Nat) (style : Style) (nctx : NodeCtx)
    (wordAt : Nat → Option (Nat × Nat)) (f1 cont f2 : CmNode)
    (hstyle : ¬ style = .comment)
    (hdet : detectRange nctx = [f1, cont, f2] ∨ detectRange nctx = [f2, cont, f1]
      ∨ detectRange nctx = [cont, f1, f2])
    (h1 : f1.start < f1.stop) (h12 : f1.stop = cont.start) (hc : cont.start < cont.stop)
    (h23 : cont.stop = f2.start) (h2 : f2.start < f2.stop) :
    toggleStyle line (.caret c) (some nctx) wordAt style =
      .edited (replaceList line f1.start f2.stop (listSlice line cont.start cont.stop))
        (some ((f1.start : Int) +
          min (max ((c : Int) - cont.start) 0) ((cont.stop : Int) - cont.start))) :=
  toggleStyle_collapse_core line c style nctx wordAt f1 cont f2 hstyle hdet h1 h12 hc h23 h2

/-- Witness for C2: line `a **bold** b`, caret at offset 6 inside `bold`;
collapse yields `a bold b` with the caret at offset 4, preserving the
caret's offset 2 relative to the content start. -/
theorem toggleStyle_collapse_spec_witness :
    toggleStyle ("a **bold** b".toList) (.caret 6) (some ctxContent) (fun _ => none) .strong
      = .edited ("a bold b".toList) (some 4) := by
  rw [toggleStyle_collapse_spec ("a **bold** b".toList) 6 .strong ctxContent (fun _ => none)
    ⟨2, 4, true, true⟩ ⟨4, 8, false, true⟩ ⟨8, 10, true, true⟩ (by decide)
    (Or.inr (Or.inr (by decide))) (by decide) (by decide) (by decide) (by decide) (by decide)]
  decide

/-! ### C5: wrap-then-collapse round trip -/

theorem delims_len (style : Style) :
    1 ≤ (delims style).1.length ∧ 1 ≤ (delims style).2.length := by
  cases style <;> exact ⟨by decide, by decide⟩

theorem dropLast3_append (l : List Char) (a b c : Char) :
    ((l ++ [a, b, c]).dropLast).dropLast.dropLast = l := by
  have h1 : l ++ [a, b, c] = ((l ++ [a]) ++ [b]) ++ [c] := by simp
  rw [h1, List.dropLast_concat, List.dropLast_concat, List.dropLast_concat]

theorem dropTrailingSpaces_snoc (l : List Char) (hl : l.getLast? ≠ some ' ') :
    dropTrailingSpaces (l ++ [' ']) = l := by
  unfold dropTrailingSpaces
  rw [List.reverse_append]
  simp only [List.reverse_cons, List.reverse_nil, List.nil_append, List.singleton_append]
  rw [List.dropWhile_cons]
  simp only [beq_self_eq_true, if_true]
  cases hrev : l.reverse with
  | nil =>
    have h0 : l = [] := by simpa using congrArg List.reverse hrev
    simp [h0]
  | cons g R =>
    have hg : (g == ' ') = false := by
      have h1 : l.getLast? = some g := by
        rw [← List.head?_reverse, hrev]
        rfl
      have h2 : g ≠ ' ' := by
        intro hgg
        exact hl (by rw [h1, hgg])
      simpa using h2
    rw [List.dropWhile_cons]
    simp only [hg, Bool.false_eq_true, if_false]
    rw [← hrev, List.reverse_reverse]

theorem stripComment_wrap (W : List Char) (hne : W ≠ [])
    (hh : W.head? ≠ some ' ') (hl : W.getLast? ≠ some ' ') :
    stripComment ("<!-- ".toList ++ W ++ " -->".toList) = W := by
  obtain ⟨w, W2, rfl⟩ := List.exists_cons_of_ne_nil hne
  have hw : (w == ' ') = false := by
    have h2 : w ≠ ' ' := by simpa using hh
    simpa using h2
  have hform : "<!-- ".toList ++ (w :: W2) ++ " -->".toList
      = '<' :: '!' :: '-' :: '-' :: ' ' :: w :: (W2 ++ [' ', '-', '-', '>']) := by
    have e1 : "<!-- ".toList = ['<', '!', '-', '-', ' '] := by decide
    have e2 : " -->".toList = [' ', '-', '-', '>'] := by decide
    rw [e1, e2]
    simp
  rw [hform]
  have hc1 : ('<' :: '!' :: '-' :: '-' :: ' ' :: w :: (W2 ++ [' ', '-', '-', '>'])).take 4
      = ['<', '!', '-', '-'] := rfl
  have hc2 : (('<' :: '!' :: '-' :: '-' :: ' ' :: w :: (W2 ++ [' ', '-', '-', '>'])).drop 4).dropWhile
      (fun ch => ch == ' ') = w :: (W2 ++ [' ', '-', '-', '>']) := by
    simp [hw]
  have hc3 : (w :: (W2 ++ [' ', '-', '-', '>'])).reverse.take 3 = ['>', '-', '-'] := by
    simp
  have hc4 : ((w :: (W2 ++ [' ', '-', '-', '>'])).dropLast).dropLast.dropLast
      = (w :: W2) ++ [' '] := by
    have h5 : w :: (W2 ++ [' ', '-', '-', '>']) = ((w :: W2) ++ [' ']) ++ ['-', '-', '>'] := by
      simp
    rw [h5]
    exact dropLast3_append ((w :: W2) ++ [' ']) '-' '-' '>'
  simp only [stripComment]
  rw [if_pos hc1, hc2, if_pos hc3, hc4]
  exact dropTrailingSpaces_snoc (w :: W2) (by simpa using hl)

theorem detect_wrappedCtx (style : Style) (a clen : Nat) (hst : ¬ style = .comment) :
    detectRange (wrappedCtx style a clen) =
      [⟨a + (delims style).1.length, a + (delims style).1.length + clen, false, true⟩,
        ⟨a, a + (delims style).1.length, true, true⟩,
        ⟨a + (delims style).1.length + clen,
          a + (delims style).1.length + clen + (delims style).2.length, true, true⟩] := by
  simp [wrappedCtx, detectRange, matchesFormatting, matchesContent, hst]

/-- Claim C5: for every style with delimiter pair (p, s) and every plain word
(no leading/trailing space) with the caret inside it in otherwise unmarked
text (no rendered construct at the caret), toggling twice is the identity on
the text: the first call wraps the word as p ++ word ++ s (caret shifted
right by p's length, hence inside the rendered content), and the second
call — with the host now rendering the construct (`wrappedCtx`) — collapses
it back, leaving the line byte-identical to the original (caret position
excluded). -/
theorem toggleStyle_roundtrip (style : Style) (line : List Char) (c a b : Nat)
    (wa1 wa2 : Nat → Option (Nat × Nat))
    (hw : wa1 c = some (a, b)) (hac : a ≤ c) (hcb : c ≤ b) (hb : b ≤ line.length) (hab : a < b)
    (hhead : (listSlice line a b).head? ≠ some ' ')
    (hlast : (listSlice line a b).getLast? ≠ some ' ') :
    toggleStyle line (.caret c) none wa1 style =
      .edited (replaceList line a b
        ((delims style).1 ++ listSlice line a b ++ (delims style).2))
        (some ((c : Int) + (delims style).1.length))
    ∧ ∃ cur, toggleStyle
        (replaceList line a b ((delims style).1 ++ listSlice line a b ++ (delims style).2))
        (.caret (c + (delims style).1.length))
        (some (wrappedCtx style a (b - a))) wa2 style = .edited line cur := by
  have hxlen : (line.take a).length = a := by
    rw [List.length_take]
    omega
  have hWlen : (listSlice line a b).length = b - a := listSlice_length line a b hb
  have hmlen : ((delims style).1 ++ listSlice line a b ++ (delims style).2).length
      = (delims style).1.length + (b - a) + (delims style).2.length := by
    rw [List.length_append, List.length_append, hWlen]
  have hslice : listSlice
      (replaceList line a b ((delims style).1 ++ listSlice line a b ++ (delims style).2))
      a (a + (delims style).1.length + (b - a) + (delims style).2.length)
      = (delims style).1 ++ listSlice line a b ++ (delims style).2 := by
    have h0 := slice_concat (line.take a)
      ((delims style).1 ++ listSlice line a b ++ (delims style).2) (line.drop b)
    rw [hxlen, hmlen] at h0
    have hidx : a + ((delims style).1.length + (b - a) + (delims style).2.length)
        = a + (delims style).1.length + (b - a) + (delims style).2.length := by omega
    rw [hidx] at h0
    exact h0
  have hsliceW : listSlice
      (replaceList line a b ((delims style).1 ++ listSlice line a b ++ (delims style).2))
      (a + (delims style).1.length) (a + (delims style).1.length + (b - a))
      = listSlice line a b := by
    have h0 := slice_concat (line.take a ++ (delims style).1) (listSlice line a b)
      ((delims style).2 ++ line.drop b)
    rw [List.length_append, hxlen, hWlen] at h0
    have hre : ((line.take a ++ (delims style).1) ++ listSlice line a b)
          ++ ((delims style).2 ++ line.drop b)
        = (line.take a ++ ((delims style).1 ++ listSlice line a b ++ (delims style).2))
          ++ line.drop b := by
      simp [List.append_assoc]
    rw [hre] at h0
    exact h0
  have hrepl : replaceList
      (replaceList line a b ((delims style).1 ++ listSlice line a b ++ (delims style).2))
      a (a + (delims style).1.length + (b - a) + (delims style).2.length) (listSlice line a b)
      = line := by
    have h0 := replace_concat (line.take a)
      ((delims style).1 ++ listSlice line a b ++ (delims style).2) (line.drop b)
      (listSlice line a b)
    rw [hxlen, hmlen] at h0
    have hidx : a + ((delims style).1.length + (b - a) + (delims style).2.length)
        = a + (delims style).1.length + (b - a) + (delims style).2.length := by omega
    rw [hidx] at h0
    exact h0.trans (take_slice_drop line a b (le_of_lt hab))
  constructor
  · simp [toggleStyle, caretWordWrap, hw]
  · by_cases hst : style = Style.comment
    · refine ⟨none, ?_⟩
      subst hst
      have hne : listSlice line a b ≠ [] := by
        intro h0
        rw [h0] at hWlen
        simp at hWlen
        omega
      have hstrip : stripComment
          ((delims Style.comment).1 ++ listSlice line a b ++ (delims Style.comment).2)
          = listSlice line a b :=
        stripComment_wrap (listSlice line a b) hne hhead hlast
      simp only [toggleStyle, wrappedCtx, eq_self_iff_true, if_true]
      rw [hslice, hstrip, hrepl]
    · have hdet := detect_wrappedCtx style a (b - a) hst
      have hcol := toggleStyle_collapse_core
        (replaceList line a b ((delims style).1 ++ listSlice line a b ++ (delims style).2))
        (c + (delims style).1.length) style (wrappedCtx style a (b - a)) wa2
        ⟨a, a + (delims style).1.length, true, true⟩
        ⟨a + (delims style).1.length, a + (delims style).1.length + (b - a), false, true⟩
        ⟨a + (delims style).1.length + (b - a),
          a + (delims style).1.length + (b - a) + (delims style).2.length, true, true⟩
        hst (Or.inr (Or.inr hdet))
        (show a < a + (delims style).1.length by
          have h5 := (delims_len style).1
          omega)
        rfl
        (show a + (delims style).1.length < a + (delims style).1.length + (b - a) by omega)
        rfl
        (show a + (delims style).1.length + (b - a)
            < a + (delims style).1.length + (b - a) + (delims style).2.length by
          have h5 := (delims_len style).2
          omega)
      dsimp only at hcol
      rw [hsliceW, hrepl] at hcol
      exact ⟨_, hcol⟩

/-- Witness for C5: the word `hi` with the caret inside it wraps to `**hi**`
and, with the host rendering that construct, a second toggle restores `hi`. -/
theorem toggleStyle_roundtrip_witness :
    toggleStyle ("hi".toList) (.caret 1) none (fun _ => some (0, 2)) .strong
      = .edited ("**hi**".toList) (some 3)
    ∧ toggleStyle ("**hi**".toList) (.caret 3) (some (wrappedCtx .strong 0 2))
        (fun _ => none) .strong = .edited ("hi".toList) (some 1) := by
  have h := toggleStyle_roundtrip .strong ("hi".toList) 1 0 2 (fun _ => some (0, 2))
    (fun _ => none) rfl (by omega) (by omega) (by decide) (by omega) (by decide) (by decide)
  exact ⟨h.1.trans (by decide), by decide⟩

/-! ### C6: `toggleLink` markdown-link collapse -/

/-- Counterexample for C6 as stated: line `[](u)` (an empty link text) with
the caret at offset 2, in link context.  The match is replaced by its empty
text, but the final caret offset is -1 — outside the remaining text bounds,
which start at offset 0. -/
theorem toggleLink_empty_text_counterexample :
    toggleLink ("[](u)".toList) 2 .mdLink (.caret 2) (fun _ => none) = .edited [] (-1)
    ∧ ((-1 : Int) < 0) :=
  ⟨by decide, by decide⟩

/-- Claim C6 (amended): when the caret's rendered context is a link/URL span
and the scan finds the first markdown-link match whose span contains the
caret (caret inside, or exactly at the trailing boundary), `toggleLink`
replaces the whole match with just its link text; provided the link text is
non-empty the final caret stays within the remaining text's bounds — moved
to one position before the text's end if it was at or past the text's end,
shifted left by one if strictly past the opening bracket, else snapped to
the match start.  (With an empty link text the caret lands one position
before the match start, which can be -1.) -/
theorem toggleLink_collapse (line : List Char) (c : Nat) (sel : Sel)
    (wordAt : Nat → Option (Nat × Nat)) (idx len : Nat) (t : List Char)
    (hscan : mdScan line c 0 (line.length + 1) = some (idx, len, t))
    (ht : t ≠ []) :
    ∃ c2 : Int, toggleLink line c .mdLink sel wordAt
        = .edited (replaceList line idx (idx + len) t) c2
      ∧ c2 = (if (c : Int) ≥ (idx : Int) + t.length then (idx : Int) + t.length - 1
          else if (c : Int) > (idx : Int) + 1 then (c : Int) - 1
          else (idx : Int))
      ∧ (idx : Int) ≤ c2 ∧ c2 < (idx : Int) + t.length := by
  have htlen : 1 ≤ t.length := List.length_pos.mpr ht
  refine ⟨_, ?_, rfl, ?_, ?_⟩
  · simp only [toggleLink, hscan]
  · split_ifs <;> omega
  · split_ifs <;> omega

/-- Witness for C6: line `[label](http://x)` with the caret at offset 3
inside `label` collapses to `label` with the caret at offset 2. -/
theorem toggleLink_collapse_witness :
    toggleLink ("[label](http://x)".toList) 3 .mdLink (.caret 3) (fun _ => none)
      = .edited ("label".toList) 2 := by
  obtain ⟨c2, heq, hform, _, _⟩ := toggleLink_collapse ("[label](http://x)".toList) 3
    (.caret 3) (fun _ => none) 0 17 ("label".toList) (by decide) (by decide)
  rw [heq, hform]
  decide

/-! ### C7: `toggleTag` falls through to wrap unless both scans succeed -/

/-- Claim C7: whenever at most one of the two regex scans succeeds in each of
the two caret-relative slicings of the line, `toggleTag` performs no
collapse: it falls through to the `wrapSelection` path, inserting `<tag>`
and `</tag>` around the word at the caret (caret restored shifted right by
the opening tag's length) or around the explicit selection. -/
theorem toggleTag_fallthrough (line tag : List Char) (sel : Sel)
    (wordAt : Nat → Option (Nat × Nat))
    (h1 : findOpen tag (jsSlice line 0 ((sel.cursorPos : Int) + ((tag.length : Int) + 1))) = none
      ∨ findClose tag (jsSlice line ((sel.cursorPos : Int) + ((tag.length : Int) + 1))
          line.length) = none)
    (h2 : findOpen tag (jsSlice line 0 ((sel.cursorPos : Int) - ((tag.length : Int) + 1))) = none
      ∨ findClose tag (jsSlice line ((sel.cursorPos : Int) - ((tag.length : Int) + 1))
          line.length) = none) :
    toggleTag line tag sel wordAt = wrapSelection (openTok tag) (closeTok tag) line sel wordAt
    ∧ (∀ a b, sel = .range a b →
        toggleTag line tag sel wordAt =
          (line.take a ++ openTok tag ++ listSlice line a b ++ closeTok tag ++ line.drop b,
            none))
    ∧ (∀ cc a b, sel = .caret cc → wordAt cc = some (a, b) →
        toggleTag line tag sel wordAt =
          (line.take a ++ openTok tag ++ listSlice line a b ++ closeTok tag ++ line.drop b,
            some ((cc : Int) + (openTok tag).length))) := by
  have hmain : toggleTag line tag sel wordAt
      = wrapSelection (openTok tag) (closeTok tag) line sel wordAt := by
    simp only [toggleTag]
    rcases h1 with h1 | h1
    · rw [h1]
      rcases h2 with h2 | h2
      · rw [h2]
      · rw [h2]
        cases findOpen tag (jsSlice line 0 ((sel.cursorPos : Int) - ((tag.length : Int) + 1))) <;>
          rfl
    · rw [h1]
      cases hfo : findOpen tag (jsSlice line 0 ((sel.cursorPos : Int) + ((tag.length : Int) + 1))) <;>
        simp only [] <;>
        · rcases h2 with h2 | h2
          · rw [h2]
          · rw [h2]
            cases findOpen tag
                (jsSlice line 0 ((sel.cursorPos : Int) - ((tag.length : Int) + 1))) <;> rfl
  refine ⟨hmain, ?_, ?_⟩
  · intro a b hsel
    subst hsel
    rw [hmain]
    simp [wrapSelection, replaceList, List.append_assoc]
  · intro cc a b hsel hword
    subst hsel
    rw [hmain]
    simp [wrapSelection, hword, replaceList, List.append_assoc]

/-- Witness for C7: tag `u` on the line `hello` (no `<u>`/`</u>` anywhere),
caret at offset 2 with the word `hello` under it: wrap to `<u>hello</u>`
with the caret at offset 5. -/
theorem toggleTag_fallthrough_witness :
    toggleTag ("hello".toList) ("u".toList) (.caret 2) (fun _ => some (0, 5))
      = ("<u>hello</u>".toList, some 5) := by
  have h := toggleTag_fallthrough ("hello".toList) ("u".toList) (.caret 2)
    (fun _ => some (0, 5)) (by decide) (by decide)
  exact (h.2.2 2 0 5 rfl rfl).trans (by decide)

/-! ### Dispatcher helper lemmas -/

theorem keydown_reachesMain (env : DispatchEnv) (e : KeyEvent) (h : reachesMainDispatch env e) :
    keydownListener env e = mainDispatch env e := by
  obtain ⟨h1, h2, h3, h4, h5, h6, h7, h8, h9, h10, h11, h12⟩ := h
  simp [keydownListener, h1, h2, h3, h4, h5, h6, h7, h8, h9, h10, h11, h12]

theorem treeBranch_prevented (env : DispatchEnv) (e : KeyEvent) :
    outcomePrevented (treeBranch env e) = true := by
  cases h : treeKeyCore env e <;> simp [treeBranch, h, outcomePrevented]

theorem canvasBranch_prevented (env : DispatchEnv) (e : KeyEvent) :
    outcomePrevented (canvasBranch env e) = true ↔
      (e.key = "j" ∨ e.key = "k" ∨ e.key = "h" ∨ e.key = "l" ∨ e.key = "t" ∨ e.key = "f"
        ∨ e.key = "z") := by
  unfold canvasBranch canvasCore
  split_ifs with hk h2 h3 h4 h5 <;> simp [outcomePrevented, hk]

theorem previewFinish_prevented (env : DispatchEnv) (acts : List HostAction)
    (p : PreviewPlan) :
    outcomePrevented (previewFinish env acts p) = planResolved p := by
  unfold previewFinish planResolved
  by_cases h1 : truthyOpt p.top = true
  · simp [h1, outcomePrevented]
  · by_cases h2 : truthyOpt p.left = true
    · simp [h1, h2, outcomePrevented]
    · cases hc : p.command <;> cases he : p.event <;>
        simp [h1, h2, hc, he, outcomePrevented]

theorem previewBranch_prevented (env : DispatchEnv) (e : KeyEvent)
    (hkan : ¬ (env.viewType = "kanban" ∧ env.kanbanCellEditing = true)) :
    outcomePrevented (previewBranch env e)
      = (match previewSwitch env e with
          | some (p, _) => planResolved p
          | none => false) := by
  unfold previewBranch
  rw [if_neg hkan]
  cases hs : previewSwitch env e with
  | none => simp [outcomePrevented]
  | some pa =>
    obtain ⟨p, acts⟩ := pa
    simp [previewFinish_prevented]

/-! ### C1: text-input pass-through -/

/-- Counterexample for C1 as stated: `document.activeElement` is an INPUT
(it matches the text-input selector), but it is a prompt input and ctrl+j is
pressed — the prompt-input guard runs before the pass-through guard, calls
`preventDefault` and redispatches a synthetic arrow key, so `defaultPrevented`
does not stay false for every key with modifiers. -/
theorem keydown_textInput_counterexample :
    textInputLike { baseEnv with activeTag := "INPUT", promptInputActive := true }
    ∧ outcomePrevented (keydownListener
        { baseEnv with activeTag := "INPUT", promptInputActive := true }
        (ctrlKeyOf "j")) = true :=
  ⟨Or.inl rfl, by decide⟩

/-- Claim C1 (amended): for every key event during which
`document.activeElement` matches a text-input-like selector, provided the
event is not one of the three guard shortcuts that run earlier in the
handler (meta+c in the file explorer, ctrl+j/k in a prompt input, ctrl+n/p
in a side-dock pane), `handleKeydown` leaves `defaultPrevented` false and
performs no action at all — regardless of view type and key. -/
theorem keydown_textInput_passthrough (env : DispatchEnv) (e : KeyEvent)
    (hin : textInputLike env)
    (hg1 : ¬ (e.metaKey = true ∧ e.key = "c" ∧ env.viewType = "file-explorer"))
    (hg2 : ¬ (env.promptInputActive = true ∧ (e.key = "j" ∨ e.key = "k") ∧ e.ctrlKey = true))
    (hg3 : ¬ (env.pane = true ∧ env.paneInSidedock = true ∧ (e.key = "n" ∨ e.key = "p")
        ∧ e.ctrlKey = true)) :
    keydownListener env e = .ok ⟨false, []⟩ := by
  unfold keydownListener
  by_cases hal : env.activeLeaf = false
  · rw [if_pos hal]
  · have hcond : env.activeTag = "INPUT" ∨ env.activeTag = "TEXTAREA"
        ∨ env.textboxLikeActive = true ∨ env.popoverMarkerPresent = true ∨ env.pane = false
        ∨ env.renamingInPane = true ∨ e.ctrlKey = true ∨ e.altKey = true
        ∨ e.metaKey = true := by
      rcases hin with h | h | h
      · exact Or.inl h
      · exact Or.inr (Or.inl h)
      · exact Or.inr (Or.inr (Or.inl h))
    rw [if_neg hal, if_neg hg1, if_neg hg2, if_neg hg3, if_pos hcond]

/-- Witness for C1: an INPUT-focused state with a plain `j` press: the
handler does nothing and does not prevent default. -/
theorem keydown_textInput_passthrough_witness :
    keydownListener { baseEnv with activeTag := "INPUT" } (keyOf "j") = .ok ⟨false, []⟩ :=
  keydown_textInput_passthrough { baseEnv with activeTag := "INPUT" } (keyOf "j")
    (Or.inl rfl) (by decide) (by decide) (by decide)

/-! ### C8: preventDefault discipline of the main dispatch branches -/

/-- Counterexample for C8 as stated: in the canvas branch the pan key `J`
performs its transform rewrite without `preventDefault` ever being called —
the canvas branch does not prevent default unconditionally on entry to the
key switch; it only prevents once a command is resolved. -/
theorem canvas_preventDefault_counterexample :
    keydownListener { baseEnv with viewType := "canvas", canvasTransform := some (0, 0) }
      (keyOf "J")
      = .ok ⟨false, [HostAction.canvasSetTransform 0 (-10)]⟩ := by
  decide

/-- Claim C8 (amended): for every key event that reaches the main view-type
dispatch: the tree-like branch calls `preventDefault` unconditionally on
entry to the key switch (for every key, bound or not); the canvas branch
calls it only when a concrete command is resolved (exactly the
navigate/create/zoom keys j, k, h, l, t, f, z — never for pan, delete, edit
or search); and the preview-like branch calls it only once the key switch
has resolved a concrete action (a nonzero scroll delta, a command, or a
synthetic key event). -/
theorem preventDefault_discipline (env : DispatchEnv) (e : KeyEvent)
    (h : reachesMainDispatch env e) :
    (¬ env.viewType ∈ viewTypeList → outcomePrevented (keydownListener env e) = true)
    ∧ (env.viewType = "canvas" →
        (outcomePrevented (keydownListener env e) = true ↔
          (e.key = "j" ∨ e.key = "k" ∨ e.key = "h" ∨ e.key = "l" ∨ e.key = "t" ∨ e.key = "f"
            ∨ e.key = "z")))
    ∧ (((env.viewType = "markdown" ∧ env.markdownMode = "preview") ∨ env.viewType = "pdf"
          ∨ env.viewType = "kanban" ∨ env.viewType = "bases") →
        ¬ (env.viewType = "kanban" ∧ env.kanbanCellEditing = true) →
        outcomePrevented (keydownListener env e)
          = (match previewSwitch env e with
              | some (p, _) => planResolved p
              | none => false)) := by
  rw [keydown_reachesMain env e h]
  refine ⟨?_, ?_, ?_⟩
  · intro hv
    unfold mainDispatch
    rw [if_pos hv]
    exact treeBranch_prevented env e
  · intro hv
    unfold mainDispatch
    have hmem : env.viewType ∈ viewTypeList := by
      rw [hv]; decide
    rw [if_neg (not_not_intro hmem), if_neg (by rw [hv]; decide), if_pos hv]
    exact canvasBranch_prevented env e
  · intro hv hkan
    unfold mainDispatch
    have hmem : env.viewType ∈ viewTypeList := by
      rcases hv with ⟨h1, _⟩ | h1 | h1 | h1 <;> rw [h1] <;> decide
    have hne : ¬ env.viewType = "empty" := by
      rcases hv with ⟨h1, _⟩ | h1 | h1 | h1 <;> rw [h1] <;> decide
    have hnc : ¬ env.viewType = "canvas" := by
      rcases hv with ⟨h1, _⟩ | h1 | h1 | h1 <;> rw [h1] <;> decide
    rw [if_neg (not_not_intro hmem), if_neg hne, if_neg hnc, if_pos hv]
    exact previewBranch_prevented env e hkan

/-- Witness for C8: a sidebar ("search") view with the unbound key `x`
still has default prevented by the tree-like branch. -/
theorem preventDefault_discipline_witness :
    outcomePrevented (keydownListener { baseEnv with viewType := "search" } (keyOf "x"))
      = true :=
  (preventDefault_discipline { baseEnv with viewType := "search" } (keyOf "x")
    ⟨rfl, by decide, by decide, rfl, rfl, rfl, rfl, rfl, rfl, rfl, rfl, rfl⟩).1 (by decide)

/-! ### C10: `g`/`G` crash on tree-less views in the tree-like branch -/

/-- Claim C10: in the tree-like dispatch branch, when the active view
exposes no tree object, the keys h/j/J/k/K are no-ops (optional chaining)
— default already prevented, no action — but `g` and `G` dereference
`tree.containerEl`/`tree.infinityScroll` without a null guard, so the
handler throws a TypeError instead of returning as a no-op. -/
theorem tree_noTree_gG (env : DispatchEnv) (e : KeyEvent) (h : reachesMainDispatch env e)
    (hvt : ¬ env.viewType ∈ viewTypeList) (ht : env.tree = none) :
    ((e.key = "h" ∨ e.key = "j" ∨ e.key = "J" ∨ e.key = "k" ∨ e.key = "K") →
      keydownListener env e = .ok ⟨true, []⟩)
    ∧ ((e.key = "g" ∨ e.key = "G") → keydownListener env e = .thrown ⟨true, []⟩) := by
  rw [keydown_reachesMain env e h]
  unfold mainDispatch
  rw [if_pos hvt]
  constructor
  · rintro (hk | hk | hk | hk | hk) <;> simp [treeBranch, treeKeyCore, hk, ht]
  · rintro (hk | hk) <;> simp [treeBranch, treeKeyCore, hk, ht]

/-- Witness for C10: a tree-less "search" view: `g` throws after the
unconditional preventDefault. -/
theorem tree_noTree_gG_witness :
    keydownListener { baseEnv with viewType := "search" } (keyOf "g")
      = .thrown ⟨true, []⟩ :=
  (tree_noTree_gG { baseEnv with viewType := "search" } (keyOf "g")
    ⟨rfl, by decide, by decide, rfl, rfl, rfl, rfl, rfl, rfl, rfl, rfl, rfl⟩
    (by decide) rfl).2 (Or.inl rfl)
